import Mathlib

/-!
Shallow embedding of the YARPC repository (Go) in Lean 4.

Source files:
  src/main/main.go        : demo program and the service/method registry (package YARPC, service.go part)
  src/unnamed/part_000    : client.go and server.go of package YARPC
  src/unnamed/part_001    : codec package (GobCodec, Header, codec registry)

Go strings are modelled as lists of characters (GoStr).  Go errors are
modelled as GoStr messages; a nullable error is Option GoStr.  Go maps are
modelled as association lists where insertion prepends, so lookup of the
first matching key gives the most recent binding.  Mutexes vanish in the
sequential embedding, except that the lock acquisition order of
terminateCalls is recorded as an explicit event trace.  Ghost fields
(closeCount, doneCount, completed, assigned) record event history that Go
expresses through side effects; they never influence control flow.
-/

namespace YARPC

/-- Go string, modelled as its character sequence. -/
abbrev GoStr : Type := List Char

/-- Association-list lookup; the first matching key wins (the model of a Go
map keeps the most recent binding at the head). -/
def assocLookup {α β : Type} [DecidableEq α] : List (α × β) → α → Option β
  | [], _ => none
  | (a, b) :: t, k => if a = k then some b else assocLookup t k

/-- Association-list erase of every binding of a key (a Go map holds at most
one binding per key, deletion removes it). -/
def assocErase {α β : Type} [DecidableEq α] : List (α × β) → α → List (α × β)
  | [], _ => []
  | (a, b) :: t, k => if a = k then assocErase t k else (a, b) :: assocErase t k

/-! ## Reflection layer

Model of the fragment of the Go type/reflect semantics the repository uses.
These definitions translate the Go language runtime behaviour, which is the
semantics the source code in src/main/main.go is written against. -/

/-- A Go reflect.Type as used by the repository: a named (defined) type,
carrying its package path and name, or a pointer type.  Built-in types
(error, float32, string, ...) are named types with empty package path. -/
inductive RType where
  | named (pkgPath : GoStr) (name : GoStr)
  | ptr (elem : RType)
deriving DecidableEq

/-- reflect.Type.Name(): name of a named type, empty for a pointer type. -/
def RType.name : RType → GoStr
  | .named _ n => n
  | .ptr _ => []

/-- reflect.Type.PkgPath(): package path of a named type, empty for a
pointer type (and empty for built-in types). -/
def RType.pkgPath : RType → GoStr
  | .named p _ => p
  | .ptr _ => []

/-- reflect.Kind test used by newArgv: is the type a pointer type. -/
def RType.isPtr : RType → Bool
  | .ptr _ => true
  | _ => false

/-- reflect.Type.Elem() on a pointer type (identity elsewhere; the source
only applies it to pointers). -/
def RType.elemT : RType → RType
  | .ptr e => e
  | t => t

/-- A Go value as far as the registry claims observe it: a nil pointer, an
allocated pointer to a value, or the zero value of a non-pointer type. -/
inductive GoVal where
  | nilPtr (elem : RType)
  | ptrTo (elem : RType) (v : GoVal)
  | zeroOf (t : RType)
deriving DecidableEq

/-- The zero value of a type: nil for pointer types, the zero value of the
concrete type otherwise. -/
def zeroValue : RType → GoVal
  | .ptr e => .nilPtr e
  | t => .zeroOf t

/-- reflect.New(t): an allocated (non-nil) pointer to a new zero value of t. -/
def reflectNew (t : RType) : GoVal := .ptrTo t (zeroValue t)

/-- reflect.Value.Elem(): dereference an allocated pointer (identity
elsewhere; the source only applies it to the result of reflect.New). -/
def GoVal.elemV : GoVal → GoVal
  | .ptrTo _ v => v
  | v => v

/-- Whether a value is a nil pointer. -/
def GoVal.isNil : GoVal → Bool
  | .nilPtr _ => true
  | _ => false

/-- ast.IsExported: the first character of the name is upper case
(src/main/main.go line 184 and 219). -/
def isExported (s : GoStr) : Bool :=
  match s with
  | [] => false
  | c :: _ => c.isUpper

/-- isExportedOrBuiltinType (src/main/main.go lines 217-220):
ast.IsExported(t.Name()) || t.PkgPath() == "". -/
def isExportedOrBuiltinType (t : RType) : Bool :=
  isExported t.name || t.pkgPath.isEmpty

/-! ## Method registry (src/main/main.go, package YARPC service part) -/

/-- methodType (src/main/main.go lines 127-131); the method value itself is
identified by its name. -/
structure methodType where
  methodName : GoStr
  ArgType : RType
  ReplyType : RType
deriving DecidableEq

/-- methodType.newArgv (src/main/main.go lines 140-163).  Both branches of
the source are the same expression reflect.New(m.ArgType).Elem(), which is
the zero value of ArgType; the branch structure is kept as written. -/
def methodType.newArgv (m : methodType) : GoVal :=
  if m.ArgType.isPtr then
    (reflectNew m.ArgType).elemV
  else
    (reflectNew m.ArgType).elemV

/-- A method of a receiver type as reflection reports it: its name, the
list of input types (index 0 is the receiver) and the list of output
types. -/
structure GoMethod where
  name : GoStr
  ins : List RType
  outs : List RType
deriving DecidableEq

/-- The built-in error interface type: empty package path, name error. -/
def errorRType : RType := RType.named [] "error".data

/-- Placeholder type for out-of-range indexing (never reached: lengths are
checked first, as in the source). -/
def defaultRType : RType := RType.named [] []

def mkMethodType (m : GoMethod) : methodType :=
  { methodName := m.name
    ArgType := m.ins.getD 1 defaultRType
    ReplyType := m.ins.getD 2 defaultRType }

/-- The body of the registerMethods loop (src/main/main.go lines 194-215):
each early continue maps to a none branch, in source order. -/
def methodEntry (m : GoMethod) : Option (GoStr × methodType) :=
  if m.ins.length ≠ 3 ∨ m.outs.length ≠ 1 then none
  else if m.outs.getD 0 defaultRType ≠ errorRType then none
  else if isExportedOrBuiltinType (m.ins.getD 1 defaultRType) = false
        ∨ isExportedOrBuiltinType (m.ins.getD 2 defaultRType) = false then none
  else some (m.name, mkMethodType m)

def registerMethodsStep (acc : List (GoStr × methodType)) (m : GoMethod) :
    List (GoStr × methodType) :=
  match methodEntry m with
  | none => acc
  | some e => e :: acc

/-- service.registerMethods (src/main/main.go lines 191-216): fold the loop
body over the method list reported by reflection. -/
def registerMethods (ms : List GoMethod) : List (GoStr × methodType) :=
  ms.foldl registerMethodsStep []

/-- Declaration of a named Go type: its declared methods, split by receiver
kind.  Models the information reflection draws on. -/
structure TypeDecl where
  pkgPath : GoStr
  name : GoStr
  valueMethods : List GoMethod
  ptrMethods : List GoMethod
deriving DecidableEq

abbrev TypeEnv := List TypeDecl

def lookupDecl : TypeEnv → GoStr → Option TypeDecl
  | [], _ => none
  | d :: t, n => if d.name = n then some d else lookupDecl t n

/-- Go method-set semantics as reflection reports it (NumMethod/Method on a
non-interface type): the method set of T is its value-receiver methods, the
method set of *T additionally contains the pointer-receiver methods;
reflection lists only exported methods. -/
def methodSetOf (env : TypeEnv) : RType → List GoMethod
  | .named _ n =>
    match lookupDecl env n with
    | some d => d.valueMethods.filter (fun m => isExported m.name)
    | none => []
  | .ptr (.named _ n) =>
    match lookupDecl env n with
    | some d => (d.valueMethods ++ d.ptrMethods).filter (fun m => isExported m.name)
    | none => []
  | .ptr (.ptr _) => []

/-- service (src/main/main.go lines 133-138); the receiver value itself is
not observed by any claim and is omitted. -/
structure service where
  name : GoStr
  typ : RType
  method : List (GoStr × methodType)
deriving DecidableEq

/-- reflect.Indirect(v).Type().Name() for a value of type t. -/
def indirectTypeName (t : RType) : GoStr := t.elemT.name

/-- newService (src/main/main.go lines 176-190).  log.Fatalf aborts the
process and is modelled as Except.error. -/
def newService (env : TypeEnv) (typ : RType) : Except GoStr service :=
  let sname := indirectTypeName typ
  if isExported sname = false then
    Except.error ("rpc server: ".data ++ sname ++ " is not a valie service name".data)
  else
    Except.ok { name := sname, typ := typ, method := registerMethods (methodSetOf env typ) }

/-! ## Codec (src/unnamed/part_001) -/

/-- codec.Header (src/unnamed/part_001 lines 70-74). -/
structure Header where
  ServiceMethod : GoStr
  Seq : Nat
  Error : GoStr
deriving DecidableEq

/-- Observable state of a GobCodec: how many times the buffered writer was
flushed, and whether the codec was closed. -/
structure CodecState where
  flushCount : Nat
  closed : Bool
deriving DecidableEq

/-- GobCodec.Write (src/unnamed/part_001 lines 43-62).  The two encode
operations are oracles giving the outcome each gob Encode call would have
(none = success).  The body encode runs only if the header encode
succeeded; the deferred block then flushes the buffer unconditionally
(discarding the flush result, as the source does) and closes the codec
exactly when the named return err is non-nil. -/
def GobCodec.Write (st : CodecState) (encHeaderErr encBodyErr : Option GoStr) :
    Option GoStr × CodecState :=
  let err : Option GoStr :=
    match encHeaderErr with
    | some e => some e
    | none => encBodyErr
  (err, { st with flushCount := st.flushCount + 1, closed := st.closed || err.isSome })

/-! ## Option and parseOptions (src/unnamed/part_000) -/

/-- MagicNumber constant (src/unnamed/part_000 line 259). -/
def MagicNumber : Nat := 0x3bef5c

/-- codec.GobType (src/unnamed/part_001 line 86). -/
def GobType : GoStr := "application/gob".data

/-- Option (src/unnamed/part_000 lines 261-266).  Named Opt because Option
is taken in Lean. -/
structure Opt where
  MagicNumber : Nat
  CodecType : GoStr
deriving DecidableEq

/-- DefaultOption (src/unnamed/part_000 lines 279-282). -/
def DefaultOption : Opt := { MagicNumber := MagicNumber, CodecType := GobType }

def optsMoreThanOneErr : GoStr := "number of options is more than 1".data

/-- parseOptions (src/unnamed/part_000 lines 131-145).  The source tests
len(opts) == 0 || opts[0] == nil first (both give DefaultOption), then
len(opts) != 1, then overwrites MagicNumber and defaults an empty
CodecType. -/
def parseOptions (opts : List (Option Opt)) : Except GoStr Opt :=
  match opts with
  | [] => Except.ok DefaultOption
  | none :: _ => Except.ok DefaultOption
  | some opt :: rest =>
    if rest.length ≠ 0 then Except.error optsMoreThanOneErr
    else
      Except.ok { MagicNumber := DefaultOption.MagicNumber
                  CodecType := if opt.CodecType = [] then DefaultOption.CodecType
                               else opt.CodecType }

/-! ## Client (src/unnamed/part_000, client part) -/

/-- ErrShutdown (src/unnamed/part_000 line 43); the source spelling,
including the typo, is preserved. -/
def ErrShutdown : GoStr := "conection is shut down".data

/-- Call (src/unnamed/part_000 lines 15-22).  Args and Reply are opaque
payloads no claim observes and are omitted; the Done channel is modelled by
its capacity DoneCap and the ghost count doneCount of done() signals
delivered on it. -/
structure Call where
  Seq : Nat
  ServiceMethod : GoStr
  Error : Option GoStr
  DoneCap : Nat
  doneCount : Nat
deriving DecidableEq

/-- call.done() (src/unnamed/part_000 lines 25-27): one signal on Done. -/
def callDone (c : Call) : Call := { c with doneCount := c.doneCount + 1 }

/-- Number of values of a Go uint64; the seq counter wraps modulo this. -/
def uint64Card : Nat := 2 ^ 64

/-- Client (src/unnamed/part_000 lines 29-39).  seq is a Go uint64,
modelled as a Nat reduced modulo 2 to the 64 at the increment (the one
arithmetic operation performed on it).  closeCount counts cc.Close calls
(ghost), completed records calls signalled after leaving the pending table
(ghost), assigned records the seq of every successful registerCall
(ghost). -/
structure ClientState where
  seq : Nat
  pending : List (Nat × Call)
  closing : Bool
  shutdown : Bool
  closeCount : Nat
  completed : List Call
  assigned : List Nat
deriving DecidableEq

/-- newClientCodec (src/unnamed/part_000 lines 184-193): seq starts at 1 (0
marks an invalid call), pending starts empty. -/
def newClientState : ClientState :=
  { seq := 1, pending := [], closing := false, shutdown := false
    closeCount := 0, completed := [], assigned := [] }

/-- Client.Close (src/unnamed/part_000 lines 46-54): if already closing
return ErrShutdown, otherwise set closing and close the codec (the
underlying close returns no error in this model; closeCount records it). -/
def Client.Close (st : ClientState) : Option GoStr × ClientState :=
  if st.closing then (some ErrShutdown, st)
  else (none, { st with closing := true, closeCount := st.closeCount + 1 })

/-- Client.IsAvailable (src/unnamed/part_000 lines 57-61). -/
def Client.IsAvailable (st : ClientState) : Bool :=
  !st.shutdown && !st.closing

/-- Client.registerCall (src/unnamed/part_000 lines 64-77): reject when
closing or shutdown, otherwise assign the current seq to the call, insert
it into pending and increment seq; the increment is uint64 arithmetic and
wraps modulo 2 to the 64. -/
def Client.registerCall (st : ClientState) (c : Call) : Except GoStr Nat × ClientState :=
  if st.closing || st.shutdown then (Except.error ErrShutdown, st)
  else
    (Except.ok st.seq,
     { st with pending := (st.seq, { c with Seq := st.seq }) :: st.pending
               seq := (st.seq + 1) % uint64Card
               assigned := st.assigned ++ [st.seq] })

/-- Client.removeCall (src/unnamed/part_000 lines 80-86): read the call
under the key and delete the key. -/
def Client.removeCall (st : ClientState) (seq : Nat) : Option Call × ClientState :=
  (assocLookup st.pending seq, { st with pending := assocErase st.pending seq })

/-- Lock events, to record the acquisition order of the two client locks. -/
inductive LockEvent where
  | acqSending
  | acqMu
  | relMu
  | relSending
deriving DecidableEq

/-- Client.terminateCalls (src/unnamed/part_000 lines 89-99): under the
sending lock then the state lock, set shutdown and give every pending call
the error and one done() signal.  The returned trace records the lock
operations in source order (the deferred unlocks run in reverse order). -/
def Client.terminateCalls (st : ClientState) (err : GoStr) : ClientState × List LockEvent :=
  ({ st with shutdown := true
             pending := st.pending.map fun p =>
               (p.1, callDone { p.2 with Error := some err }) },
   [LockEvent.acqSending, LockEvent.acqMu, LockEvent.relMu, LockEvent.relSending])

/-- One observed outcome of the read side of the connection: a header read
failure, or a delivered response header together with the outcome the
subsequent body read would have. -/
inductive RecvMsg where
  | hdrFail (err : GoStr)
  | resp (h : Header) (bodyErr : Option GoStr)
deriving DecidableEq

/-- One iteration of the receive loop body (src/unnamed/part_000 lines
103-124) on one read outcome; returns the state and the loop variable err
after the iteration.  A call completed here leaves pending and is appended
to the ghost completed list with its done() signal. -/
def Client.receiveStep (st : ClientState) : RecvMsg → ClientState × Option GoStr
  | RecvMsg.hdrFail e => (st, some e)
  | RecvMsg.resp h bodyErr =>
    let st1 := (Client.removeCall st h.Seq).2
    match (Client.removeCall st h.Seq).1 with
    | none => (st1, bodyErr)
    | some c =>
      if h.Error ≠ [] then
        ({ st1 with completed := st1.completed ++ [callDone { c with Error := some h.Error }] },
         bodyErr)
      else
        match bodyErr with
        | none => ({ st1 with completed := st1.completed ++ [callDone c] }, none)
        | some e =>
          ({ st1 with completed := st1.completed ++
              [callDone { c with Error := some ("reading body ".data ++ e) }] },
           some e)

/-- Client.receive (src/unnamed/part_000 lines 101-127): iterate while err
is nil; when an iteration produces an error, stop and terminate all pending
calls with it.  The input list is the sequence of read outcomes the codec
delivers; an empty remainder means the loop is still blocked reading. -/
def Client.receive (st : ClientState) : List RecvMsg → ClientState
  | [] => st
  | m :: ms =>
    match Client.receiveStep st m with
    | (st1, none) => Client.receive st1 ms
    | (st1, some e) => (Client.terminateCalls st1 e).1

/-- Client.send (src/unnamed/part_000 lines 194-220): register the call
(on failure the call is signalled with the error); then write the request,
and on write failure remove the call from pending and signal it.  writeErr
is the oracle for the outcome of cc.Write. -/
def Client.send (st : ClientState) (c : Call) (writeErr : Option GoStr) : ClientState :=
  match Client.registerCall st c with
  | (Except.error e, st1) =>
    { st1 with completed := st1.completed ++ [callDone { c with Error := some e }] }
  | (Except.ok seq, st1) =>
    match writeErr with
    | none => st1
    | some e =>
      match Client.removeCall st1 seq with
      | (none, st2) => st2
      | (some c2, st2) =>
        { st2 with completed := st2.completed ++ [callDone { c2 with Error := some e }] }

/-- Client.Go (src/unnamed/part_000 lines 224-239): a nil done channel is
replaced by a fresh buffered channel of capacity 10; a caller-supplied
channel of capacity 0 panics (modelled as Except.error with the panic
message); then the call is built and sent.  The second component of the ok
result is the capacity of the done channel attached to the call. -/
def Client.Go (st : ClientState) (serviceMethod : GoStr) (doneCap : Option Nat)
    (writeErr : Option GoStr) : Except GoStr (ClientState × Nat) :=
  match doneCap with
  | none =>
    let call : Call :=
      { Seq := 0, ServiceMethod := serviceMethod, Error := none, DoneCap := 10, doneCount := 0 }
    Except.ok (Client.send st call writeErr, 10)
  | some 0 => Except.error "rpc client: done channel is unbuffered".data
  | some (n + 1) =>
    let call : Call :=
      { Seq := 0, ServiceMethod := serviceMethod, Error := none, DoneCap := n + 1, doneCount := 0 }
    Except.ok (Client.send st call writeErr, n + 1)

/-- The client operations that can touch the client state during its
lifetime, for stating lifetime invariants. -/
inductive ClientOp where
  | registerOp (c : Call)
  | removeOp (seq : Nat)
  | closeOp
  | sendOp (c : Call) (writeErr : Option GoStr)
  | goOp (sm : GoStr) (dc : Option Nat) (w : Option GoStr)
  | recvOp (m : RecvMsg)
  | terminateOp (err : GoStr)

/-- Effect of one client operation on the client state. -/
def clientStep (st : ClientState) : ClientOp → ClientState
  | ClientOp.registerOp c => (Client.registerCall st c).2
  | ClientOp.removeOp s => (Client.removeCall st s).2
  | ClientOp.closeOp => (Client.Close st).2
  | ClientOp.sendOp c w => Client.send st c w
  | ClientOp.goOp sm dc w =>
    match Client.Go st sm dc w with
    | Except.ok (st2, _) => st2
    | Except.error _ => st
  | ClientOp.recvOp m => (Client.receiveStep st m).1
  | ClientOp.terminateOp e => (Client.terminateCalls st e).1

/-- A client lifetime: the fresh client of newClientCodec driven by a
sequence of operations. -/
def runClient (ops : List ClientOp) : ClientState :=
  ops.foldl clientStep newClientState

/-! ## Server dispatch (src/unnamed/part_000, server part) -/

/-- Index of the last dot in a string, as strings.LastIndex(s, ".") reports
it (none for -1). -/
def lastDotIdx : GoStr → Option Nat
  | [] => none
  | c :: rest =>
    match lastDotIdx rest with
    | some i => some (i + 1)
    | none => if c = '.' then some 0 else none

def illFormedErr (s : GoStr) : GoStr :=
  "rpc server: service/method request ill-formed: ".data ++ s

/-- The apostrophe character, written by code point to keep source error
texts byte-exact. -/
def apos : Char := Char.ofNat 39

def cantFindServiceErr (s : GoStr) : GoStr :=
  "rpc server:can".data ++ apos :: "t find service ".data ++ s

def cantFindMethodErr (s : GoStr) : GoStr :=
  "rpc server: can".data ++ apos :: "t find method ".data ++ s

/-- Server.findService (src/unnamed/part_000 lines 477-495): split the
request name at the last dot (ill-formed when there is none), look the
service up in the service map, then the method in the service. -/
def findService (sm : List (GoStr × service)) (serviceMethod : GoStr) :
    Except GoStr (service × methodType) :=
  match lastDotIdx serviceMethod with
  | none => Except.error (illFormedErr serviceMethod)
  | some dot =>
    let serviceName := serviceMethod.take dot
    let methodName := serviceMethod.drop (dot + 1)
    match assocLookup sm serviceName with
    | none => Except.error (cantFindServiceErr serviceName)
    | some svc =>
      match assocLookup svc.method methodName with
      | none => Except.error (cantFindMethodErr methodName)
      | some mtype => Except.ok (svc, mtype)

/-! ## Concrete fixtures (the demo types of src/main/main.go) -/

def fooT : RType := RType.named "main".data "Foo".data

def argsT : RType := RType.named "main".data "Args".data

def float32T : RType := RType.named [] "float32".data

def stringT : RType := RType.named [] "string".data

/-! ## Claim C1 -/

def badReplyMethod : GoMethod :=
  { name := "Bad".data, ins := [fooT, argsT, argsT], outs := [errorRType] }

/-- Claim C1: the specification requires that a method whose reply (second
non-receiver) parameter is not a pointer type is NOT recorded in the method
map.  The code violates this: the eligibility filter of registerMethods
checks only the arity, the error result type, and isExportedOrBuiltinType
of both parameter types; it never checks that the reply type is a pointer,
so the method Bad(args Args, reply Args) error, whose reply is the
non-pointer exported struct type Args, is recorded.  This theorem evaluates
the embedded registerMethods at that failing input. -/
theorem registerMethods_records_nonpointer_reply :
    assocLookup (registerMethods [badReplyMethod]) "Bad".data
      = some { methodName := "Bad".data, ArgType := argsT, ReplyType := argsT }
    ∧ argsT.isPtr = false := by decide

/-! ## Claim C2 -/

def ptrArgMethodType : methodType :=
  { methodName := "M".data, ArgType := RType.ptr argsT, ReplyType := RType.ptr float32T }

def valueArgMethodType : methodType :=
  { methodName := "Sum".data, ArgType := argsT, ReplyType := RType.ptr float32T }

/-- Claim C2: the specification requires newArgv to return a freshly
allocated non-nil instance when the argument type is a pointer type.  The
code violates this: both branches of newArgv evaluate
reflect.New(ArgType).Elem(), the zero value of ArgType, which for a pointer
type is the nil pointer (exactly the outcome the inline comment of the
source warns this expression produces).  The third conjunct shows the
expression the comment intends, reflect.New(ArgType.Elem()), would be
non-nil; the fourth shows the value-type half of the claim does hold. -/
theorem newArgv_ptr_arg_is_nil :
    methodType.newArgv ptrArgMethodType = GoVal.nilPtr argsT
    ∧ GoVal.isNil (methodType.newArgv ptrArgMethodType) = true
    ∧ GoVal.isNil (reflectNew ((RType.ptr argsT).elemT)) = false
    ∧ methodType.newArgv valueArgMethodType = GoVal.zeroOf argsT := by decide

/-! ## Claim C3 -/

def stShutdownOnly : ClientState :=
  { seq := 1, pending := [], closing := false, shutdown := true
    closeCount := 0, completed := [], assigned := [] }

/-- Claim C3, counterexample: with the shutdown flag set by a transport
failure but closing not yet set, Close does not return the shutdown error;
it returns the codec close result (no error) and closes the stream (the
close count increments), because Close tests only the closing flag. -/
theorem close_after_shutdown_closes_stream :
    (Client.Close stShutdownOnly).1 = none
    ∧ (Client.Close stShutdownOnly).2.closeCount = 1 := by decide

/-- Claim C3, amended: after a Close, a second Close returns the fixed
shutdown error and leaves the state, hence the stream, untouched; and
registerCall when closing or shutdown fails with that same error and
changes nothing.  (Close called when only the shutdown flag is set does not
return the shutdown error; see the counterexample.) -/
theorem close_idempotent_and_register_rejects :
    (∀ st : ClientState, st.closing = true → Client.Close st = (some ErrShutdown, st))
    ∧ (∀ st : ClientState,
        Client.Close (Client.Close st).2 = (some ErrShutdown, (Client.Close st).2))
    ∧ (∀ (st : ClientState) (c : Call), st.closing = true ∨ st.shutdown = true →
        Client.registerCall st c = (Except.error ErrShutdown, st)) := by
  refine ⟨?_, ?_, ?_⟩
  · intro st h
    simp [Client.Close, h]
  · intro st
    by_cases h : st.closing
    · simp [Client.Close, h]
    · simp [Client.Close, h]
  · intro st c h
    rcases h with h | h <;> simp [Client.registerCall, h]

def stClosedEx : ClientState :=
  { seq := 1, pending := [], closing := true, shutdown := false
    closeCount := 1, completed := [], assigned := [] }

def callEx : Call :=
  { Seq := 0, ServiceMethod := "Foo.Sum".data, Error := none, DoneCap := 10, doneCount := 0 }

/-- Concrete instance of close_idempotent_and_register_rejects. -/
theorem close_idempotent_and_register_rejects_witness :
    (stClosedEx.closing = true)
    ∧ Client.Close stClosedEx = (some ErrShutdown, stClosedEx)
    ∧ (stShutdownOnly.closing = true ∨ stShutdownOnly.shutdown = true)
    ∧ Client.registerCall stShutdownOnly callEx = (Except.error ErrShutdown, stShutdownOnly) := by
  refine ⟨by decide, close_idempotent_and_register_rejects.1 stClosedEx (by decide),
    Or.inr (by decide),
    close_idempotent_and_register_rejects.2.2 stShutdownOnly callEx (Or.inr (by decide))⟩

/-! ## Claim C6 -/

/-- Claim C6: every call to GobCodec.Write flushes the buffered writer
exactly once before returning, succeeds exactly when both the header and
the body encode succeed, closes the codec exactly when an encode error
occurred (header or body), and returns the header encode error when there
is one, the body encode outcome otherwise. -/
theorem gobWrite_flushes_and_closes_on_error (st : CodecState) (eh eb : Option GoStr) :
    (GobCodec.Write st eh eb).2.flushCount = st.flushCount + 1
    ∧ ((GobCodec.Write st eh eb).1 = none ↔ (eh = none ∧ eb = none))
    ∧ (GobCodec.Write st eh eb).2.closed = (st.closed || ((GobCodec.Write st eh eb).1).isSome)
    ∧ (GobCodec.Write st eh eb).1 = (match eh with | some e => some e | none => eb) := by
  cases eh <;> cases eb <;> simp [GobCodec.Write]

/-! ## Claim C7 -/

/-- Claim C7, counterexample: the claim states that passing more than one
option is an error, but when the first option is nil the source returns
DefaultOption before reaching the length check, so a two-element option
list is accepted. -/
theorem parseOptions_two_options_first_nil_ok :
    parseOptions [none, some { MagicNumber := 0, CodecType := [] }]
      = Except.ok DefaultOption := rfl

/-- Claim C7, amended: a single non-nil option always comes back with
MagicNumber overwritten by the protocol constant 0x3bef5c and an empty
CodecType replaced by the gob default; no options, or a nil first option
(regardless of anything after it), yields DefaultOption; more than one
option is an error provided the first one is non-nil. -/
theorem parseOptions_spec :
    parseOptions [] = Except.ok DefaultOption
    ∧ (∀ rest : List (Option Opt), parseOptions (none :: rest) = Except.ok DefaultOption)
    ∧ (∀ o : Opt, parseOptions [some o]
        = Except.ok { MagicNumber := MagicNumber
                      CodecType := if o.CodecType = [] then GobType else o.CodecType })
    ∧ (∀ (o : Opt) (r : Option Opt) (rest : List (Option Opt)),
        parseOptions (some o :: r :: rest) = Except.error optsMoreThanOneErr) := by
  refine ⟨rfl, fun rest => rfl, fun o => rfl, fun o r rest => ?_⟩
  simp [parseOptions]

/-! ## Claim C8 -/

/-- Claim C8: Go with a nil done channel allocates a buffered channel of
capacity 10 for the call; Go with a caller-supplied channel of capacity 0
fails hard (log.Panic, modelled as the error outcome) with the source
message instead of proceeding. -/
theorem go_done_channel_policy (st : ClientState) (sm : GoStr) (w : Option GoStr) :
    (∃ st2 : ClientState, Client.Go st sm none w = Except.ok (st2, 10))
    ∧ Client.Go st sm (some 0) w
        = Except.error "rpc client: done channel is unbuffered".data :=
  ⟨⟨_, rfl⟩, rfl⟩

/-! ## Claim C4 -/

theorem lastDotIdx_eq_none_of_not_mem (l : GoStr) (h : '.' ∉ l) : lastDotIdx l = none := by
  induction l with
  | nil => rfl
  | cons c rest ih =>
    have hc : ¬ c = '.' := by
      intro hc
      exact h (by simp [hc])
    have hrest : '.' ∉ rest := by
      intro hm
      exact h (List.mem_cons_of_mem c hm)
    simp [lastDotIdx, ih hrest, hc]

theorem lastDotIdx_append_last (a b : GoStr) (hb : '.' ∉ b) :
    lastDotIdx (a ++ '.' :: b) = some a.length := by
  induction a with
  | nil => simp [lastDotIdx, lastDotIdx_eq_none_of_not_mem b hb]
  | cons c rest ih => simp [lastDotIdx, ih]

theorem take_length_append (a b : GoStr) : (a ++ b).take a.length = a := by
  induction a with
  | nil => rfl
  | cons c rest ih => simp [ih]

theorem drop_length_succ_append (a b : GoStr) (c : Char) :
    (a ++ c :: b).drop (a.length + 1) = b := by
  induction a with
  | nil => rfl
  | cons x rest ih => simp [ih]

/-- Claim C4: findService splits the request name at the LAST dot: for any
service map, a request a.b whose final segment b is dot-free resolves by
looking up service a and then method b; and any request without a dot is
rejected with the ill-formed error before the service map is consulted
(the result is the same for every map). -/
theorem findService_last_dot_split (sm : List (GoStr × service)) (a b : GoStr)
    (hb : '.' ∉ b) :
    (findService sm (a ++ '.' :: b)
      = match assocLookup sm a with
        | none => Except.error (cantFindServiceErr a)
        | some svc =>
          match assocLookup svc.method b with
          | none => Except.error (cantFindMethodErr b)
          | some mt => Except.ok (svc, mt))
    ∧ (∀ s : GoStr, '.' ∉ s → findService sm s = Except.error (illFormedErr s)) := by
  constructor
  · unfold findService
    rw [lastDotIdx_append_last a b hb]
    simp only [take_length_append, drop_length_succ_append]
  · intro s hs
    unfold findService
    rw [lastDotIdx_eq_none_of_not_mem s hs]

def mtC : methodType :=
  { methodName := "C".data, ArgType := argsT, ReplyType := RType.ptr float32T }

def svcAB : service :=
  { name := "A.B".data, typ := fooT, method := [("C".data, mtC)] }

def smEx : List (GoStr × service) := [("A.B".data, svcAB)]

/-- Concrete instance of findService_last_dot_split: the request A.B.C
resolves to service A.B and method C, and a dotless request NoDot is
rejected as ill-formed. -/
theorem findService_last_dot_split_witness :
    findService smEx ("A.B".data ++ '.' :: "C".data) = Except.ok (svcAB, mtC)
    ∧ findService smEx "NoDot".data = Except.error (illFormedErr "NoDot".data) := by
  have h := findService_last_dot_split smEx "A.B".data "C".data (by decide)
  refine ⟨?_, h.2 "NoDot".data (by decide)⟩
  rw [h.1]
  rfl

/-! ## Claim C5 -/

/-- A read outcome that keeps the receive loop running: a response header
whose body read succeeds. -/
def cleanResp : RecvMsg → Prop
  | RecvMsg.resp _ none => True
  | _ => False

theorem receiveStep_clean_snd (st : ClientState) (hd : Header) :
    (Client.receiveStep st (RecvMsg.resp hd none)).2 = none := by
  simp only [Client.receiveStep, Client.removeCall]
  cases assocLookup st.pending hd.Seq with
  | none => rfl
  | some c =>
    by_cases hE : hd.Error = [] <;> simp [hE]

theorem receive_clean_append (st : ClientState) (ms : List RecvMsg) (err : GoStr)
    (h : ∀ m ∈ ms, cleanResp m) :
    Client.receive st (ms ++ [RecvMsg.hdrFail err])
      = (Client.terminateCalls (Client.receive st ms) err).1 := by
  induction ms generalizing st with
  | nil => rfl
  | cons m ms ih =>
    have hm : cleanResp m := h m (by simp)
    have hms : ∀ x ∈ ms, cleanResp x := fun x hx => h x (by simp [hx])
    match m, hm with
    | RecvMsg.resp hd none, _ =>
      have hsnd := receiveStep_clean_snd st hd
      simp only [List.cons_append, Client.receive]
      rcases hstep : Client.receiveStep st (RecvMsg.resp hd none) with ⟨st1, e⟩
      rw [hstep] at hsnd
      simp only at hsnd
      subst hsnd
      exact ih st1 hms

/-- Claim C5: when the receive loop exits because a header read failed
(after any run of cleanly processed responses), the final state is the one
terminateCalls produces at the failure moment: shutdown is set to true, the
lock trace acquires the send lock before the state lock (and releases in
reverse order), and every call still pending at that moment reappears with
the non-null failure error assigned and exactly one additional done()
signal. -/
theorem receive_headerFail_terminates_pending (st : ClientState) (ms : List RecvMsg)
    (err : GoStr) (h : ∀ m ∈ ms, cleanResp m) :
    Client.receive st (ms ++ [RecvMsg.hdrFail err])
      = (Client.terminateCalls (Client.receive st ms) err).1
    ∧ (Client.terminateCalls (Client.receive st ms) err).1.shutdown = true
    ∧ (Client.terminateCalls (Client.receive st ms) err).2
        = [LockEvent.acqSending, LockEvent.acqMu, LockEvent.relMu, LockEvent.relSending]
    ∧ (∀ p ∈ (Client.receive st ms).pending,
        (p.1, callDone { p.2 with Error := some err })
          ∈ (Client.terminateCalls (Client.receive st ms) err).1.pending) := by
  refine ⟨receive_clean_append st ms err h, rfl, rfl, ?_⟩
  intro p hp
  simp only [Client.terminateCalls]
  exact List.mem_map_of_mem _ hp

def cPend : Call :=
  { Seq := 1, ServiceMethod := "Foo.Sum".data, Error := none, DoneCap := 10, doneCount := 0 }

def stPend : ClientState :=
  { seq := 2, pending := [(1, cPend)], closing := false, shutdown := false
    closeCount := 0, completed := [], assigned := [1] }

/-- Concrete instance of receive_headerFail_terminates_pending: one pending
call, an immediate header read failure. -/
theorem receive_headerFail_terminates_pending_witness :
    Client.receive stPend ([] ++ [RecvMsg.hdrFail "EOF".data])
      = (Client.terminateCalls (Client.receive stPend []) "EOF".data).1
    ∧ (Client.terminateCalls (Client.receive stPend []) "EOF".data).1.shutdown = true
    ∧ (1, callDone { cPend with Error := some "EOF".data })
        ∈ (Client.terminateCalls (Client.receive stPend []) "EOF".data).1.pending := by
  have h := receive_headerFail_terminates_pending stPend [] "EOF".data (by simp)
  exact ⟨h.1, h.2.1, h.2.2.2 (1, cPend) (by simp [Client.receive, stPend])⟩

/-! ## Claim C9 -/

/-- Lifetime invariant tying the wrapping seq counter to the ghost list of
assigned sequence numbers: after n successful registrations the assigned
list is 1 mod 2 to the 64, 2 mod 2 to the 64, ..., n mod 2 to the 64, and
the counter holds (1 + n) mod 2 to the 64. -/
def SeqInv (st : ClientState) : Prop :=
  st.assigned = (List.range' 1 st.assigned.length).map (fun i => i % uint64Card)
  ∧ st.seq = (1 + st.assigned.length) % uint64Card

theorem seqInv_new : SeqInv newClientState := by
  constructor
  · rfl
  · decide

theorem seqInv_registerCall (st : ClientState) (c : Call) (h : SeqInv st) :
    SeqInv (Client.registerCall st c).2 := by
  unfold Client.registerCall
  split
  · exact h
  · obtain ⟨h1, h2⟩ := h
    constructor
    · show st.assigned ++ [st.seq]
        = (List.range' 1 (st.assigned ++ [st.seq]).length).map (fun i => i % uint64Card)
      rw [List.length_append, List.length_singleton, List.range'_1_concat, List.map_append,
        List.map_singleton, ← h1, h2]
    · show (st.seq + 1) % uint64Card
        = (1 + (st.assigned ++ [st.seq]).length) % uint64Card
      rw [List.length_append, List.length_singleton, h2, Nat.mod_add_mod, Nat.add_assoc]

theorem seqInv_send (st : ClientState) (c : Call) (w : Option GoStr) (h : SeqInv st) :
    SeqInv (Client.send st c w) := by
  have hreg := seqInv_registerCall st c h
  unfold Client.send
  rcases hr : Client.registerCall st c with ⟨r, st1⟩
  rw [hr] at hreg
  cases r with
  | error e => exact hreg
  | ok seq =>
    cases w with
    | none => exact hreg
    | some e =>
      simp only [Client.removeCall]
      cases assocLookup st1.pending seq with
      | none => exact hreg
      | some c2 => exact hreg

theorem seqInv_close (st : ClientState) (h : SeqInv st) : SeqInv (Client.Close st).2 := by
  unfold Client.Close
  split
  · exact h
  · exact h

theorem seqInv_receiveStep (st : ClientState) (m : RecvMsg) (h : SeqInv st) :
    SeqInv (Client.receiveStep st m).1 := by
  cases m with
  | hdrFail e => exact h
  | resp hd b =>
    simp only [Client.receiveStep, Client.removeCall]
    cases assocLookup st.pending hd.Seq with
    | none => exact h
    | some c =>
      dsimp only
      split
      · exact h
      · cases b with
        | none => exact h
        | some e => exact h

theorem seqInv_step (st : ClientState) (op : ClientOp) (h : SeqInv st) :
    SeqInv (clientStep st op) := by
  cases op with
  | registerOp c => exact seqInv_registerCall st c h
  | removeOp s => exact h
  | closeOp => exact seqInv_close st h
  | sendOp c w => exact seqInv_send st c w h
  | goOp sm dc w =>
    cases dc with
    | none =>
      exact seqInv_send st
        { Seq := 0, ServiceMethod := sm, Error := none, DoneCap := 10, doneCount := 0 } w h
    | some n =>
      cases n with
      | zero => exact h
      | succ k =>
        exact seqInv_send st
          { Seq := 0, ServiceMethod := sm, Error := none, DoneCap := k + 1, doneCount := 0 } w h
  | recvOp m => exact seqInv_receiveStep st m h
  | terminateOp e => exact h

theorem seqInv_foldl (ops : List ClientOp) :
    ∀ st : ClientState, SeqInv st → SeqInv (ops.foldl clientStep st) := by
  induction ops with
  | nil => intro st h; exact h
  | cons op ops ih => intro st h; exact ih _ (seqInv_step st op h)

def callW : Call :=
  { Seq := 0, ServiceMethod := "Foo.Sum".data, Error := none, DoneCap := 10, doneCount := 0 }

theorem runClient_replicate_register (c : Call) (k : Nat) :
    (runClient (List.replicate k (ClientOp.registerOp c))).assigned
      = (List.range' 1 k).map (fun i => i % uint64Card)
    ∧ (runClient (List.replicate k (ClientOp.registerOp c))).closing = false
    ∧ (runClient (List.replicate k (ClientOp.registerOp c))).shutdown = false
    ∧ (runClient (List.replicate k (ClientOp.registerOp c))).seq = (1 + k) % uint64Card := by
  induction k with
  | zero =>
    refine ⟨rfl, rfl, rfl, ?_⟩
    show newClientState.seq = (1 + 0) % uint64Card
    decide
  | succ k ih =>
    obtain ⟨ha, hc, hs, hq⟩ := ih
    have hstep : runClient (List.replicate (k + 1) (ClientOp.registerOp c))
        = (Client.registerCall (runClient (List.replicate k (ClientOp.registerOp c))) c).2 := by
      unfold runClient
      rw [List.replicate_succ', List.foldl_append, List.foldl_cons, List.foldl_nil]
      rfl
    rw [hstep]
    unfold Client.registerCall
    have hcond : ¬ ((runClient (List.replicate k (ClientOp.registerOp c))).closing
        || (runClient (List.replicate k (ClientOp.registerOp c))).shutdown) = true := by
      rw [hc, hs]
      simp
    rw [if_neg hcond]
    refine ⟨?_, hc, hs, ?_⟩
    · show (runClient (List.replicate k (ClientOp.registerOp c))).assigned
          ++ [(runClient (List.replicate k (ClientOp.registerOp c))).seq]
        = (List.range' 1 (k + 1)).map (fun i => i % uint64Card)
      rw [ha, hq, List.range'_1_concat, List.map_append, List.map_singleton]
    · show ((runClient (List.replicate k (ClientOp.registerOp c))).seq + 1) % uint64Card
        = (1 + (k + 1)) % uint64Card
      rw [hq, Nat.mod_add_mod, Nat.add_assoc]

/-- Claim C9, counterexample: client.seq is a uint64 and wraps.  In the
lifetime consisting of 2 to the 64 successful registrations, the last
registration is assigned seq 0 (the counter has wrapped), so the assigned
sequence numbers are neither all nonzero nor strictly increasing, refuting
the claim as stated over unbounded lifetimes. -/
theorem client_seq_wraps_at_uint64 :
    0 ∈ (runClient (List.replicate uint64Card (ClientOp.registerOp callW))).assigned
    ∧ ¬ List.Pairwise (fun a b => a < b)
        (runClient (List.replicate uint64Card (ClientOp.registerOp callW))).assigned := by
  obtain ⟨ha, -, -, -⟩ := runClient_replicate_register callW uint64Card
  have hM : 2 ≤ uint64Card := by
    unfold uint64Card
    norm_num
  have hsplit : List.range' 1 uint64Card
      = List.range' 1 (uint64Card - 1) ++ [uint64Card] := by
    have h1 : uint64Card - 1 + 1 = uint64Card := by omega
    have h2 : 1 + (uint64Card - 1) = uint64Card := by omega
    rw [← h1, List.range'_1_concat, h2]
    rw [h1]
  constructor
  · rw [ha]
    refine List.mem_map.mpr ⟨uint64Card, ?_, Nat.mod_self uint64Card⟩
    refine List.mem_range'.mpr ⟨uint64Card - 1, by omega, by omega⟩
  · rw [ha, hsplit, List.map_append]
    intro hpw
    rw [List.pairwise_append] at hpw
    obtain ⟨-, -, hall⟩ := hpw
    have h1mem : (1 : Nat)
        ∈ (List.range' 1 (uint64Card - 1)).map (fun i => i % uint64Card) := by
      refine List.mem_map.mpr ⟨1, ?_, Nat.mod_eq_of_lt (by omega)⟩
      exact List.mem_range'.mpr ⟨0, by omega, by omega⟩
    have h0mem : (0 : Nat) ∈ ([uint64Card].map fun i => i % uint64Card) := by
      simp [Nat.mod_self]
    have := hall 1 h1mem 0 h0mem
    omega

/-- Claim C9, amended: the seq counter is uint64 arithmetic, so the claimed
properties hold for every lifetime in which fewer than 2 to the 64
successful registrations occur: under that bound the assigned seq values
are exactly 1, 2, ... in registration order, hence strictly increasing,
pairwise distinct, never 0, and the first one handed out is 1.  (At the
2 to the 64-th successful registration the counter wraps and assigns 0;
see the counterexample.) -/
theorem client_seq_unique_increasing_before_wrap (ops : List ClientOp)
    (h : (runClient ops).assigned.length < uint64Card) :
    (runClient ops).assigned = List.range' 1 (runClient ops).assigned.length
    ∧ List.Pairwise (fun a b => a < b) (runClient ops).assigned
    ∧ (runClient ops).assigned.Nodup
    ∧ 0 ∉ (runClient ops).assigned
    ∧ (runClient ops).assigned.head?
        = (if (runClient ops).assigned.length = 0 then none else some 1) := by
  have hinv : (runClient ops).assigned
      = (List.range' 1 (runClient ops).assigned.length).map (fun i => i % uint64Card) :=
    (seqInv_foldl ops newClientState seqInv_new).1
  have hcollapse : ∀ n : Nat, n < uint64Card →
      (List.range' 1 n).map (fun i => i % uint64Card) = List.range' 1 n := by
    intro n hn
    have hpt : ∀ a ∈ List.range' 1 n, a % uint64Card = a := by
      intro a hamem
      rcases List.mem_range'.mp hamem with ⟨i, hi, rfl⟩
      exact Nat.mod_eq_of_lt (by omega)
    calc (List.range' 1 n).map (fun i => i % uint64Card)
        = (List.range' 1 n).map id := List.map_congr_left hpt
      _ = List.range' 1 n := List.map_id _
  have hid : (runClient ops).assigned = List.range' 1 (runClient ops).assigned.length := by
    conv_lhs => rw [hinv]
    rw [hcollapse _ h]
  refine ⟨hid, ?_, ?_, ?_, ?_⟩
  · rw [hid]
    exact List.pairwise_lt_range' 1 _
  · rw [hid]
    exact List.nodup_range' 1 _
  · rw [hid]
    intro hmem
    rcases List.mem_range'.mp hmem with ⟨i, hi, heq⟩
    omega
  · rw [hid]
    simp only [List.length_range']
    generalize (runClient ops).assigned.length = k
    cases k with
    | zero => rfl
    | succ k =>
      rw [List.range'_succ]
      simp

def opsW : List ClientOp := [ClientOp.registerOp callW, ClientOp.registerOp callW]

/-- Concrete instance of client_seq_unique_increasing_before_wrap: a
lifetime of two successful registrations, well below the wrap bound. -/
theorem client_seq_unique_increasing_before_wrap_witness :
    ((runClient opsW).assigned.length < uint64Card)
    ∧ ((runClient opsW).assigned = List.range' 1 (runClient opsW).assigned.length
      ∧ List.Pairwise (fun a b => a < b) (runClient opsW).assigned
      ∧ (runClient opsW).assigned.Nodup
      ∧ 0 ∉ (runClient opsW).assigned
      ∧ (runClient opsW).assigned.head?
          = (if (runClient opsW).assigned.length = 0 then none else some 1)) := by
  have hlen : (runClient opsW).assigned.length < uint64Card := by decide
  exact ⟨hlen, client_seq_unique_increasing_before_wrap opsW hlen⟩


/-! ## Claim C10 -/

theorem foldl_registerMethodsStep (ms : List GoMethod) (acc : List (GoStr × methodType)) :
    ms.foldl registerMethodsStep acc = (ms.filterMap methodEntry).reverse ++ acc := by
  induction ms generalizing acc with
  | nil => simp
  | cons m ms ih =>
    rw [List.foldl_cons, ih]
    cases he : methodEntry m with
    | none => simp [registerMethodsStep, List.filterMap_cons, he]
    | some e => simp [registerMethodsStep, List.filterMap_cons, he]

theorem registerMethods_eq (ms : List GoMethod) :
    registerMethods ms = (ms.filterMap methodEntry).reverse := by
  rw [registerMethods, foldl_registerMethodsStep, List.append_nil]

theorem methodEntry_eq_some {m : GoMethod} {e : GoStr × methodType}
    (h : methodEntry m = some e) : e = (m.name, mkMethodType m) := by
  unfold methodEntry at h
  repeat' split at h
  all_goals simp_all

theorem filterMap_methodEntry_keys_sublist (ms : List GoMethod) :
    ((ms.filterMap methodEntry).map Prod.fst).Sublist (ms.map GoMethod.name) := by
  induction ms with
  | nil => simp
  | cons m ms ih =>
    cases he : methodEntry m with
    | none =>
      simp only [List.filterMap_cons, he, List.map_cons]
      exact List.Sublist.cons _ ih
    | some e =>
      have hfst : e.1 = m.name := by rw [methodEntry_eq_some he]
      simp only [List.filterMap_cons, he, List.map_cons, hfst]
      exact List.Sublist.cons₂ _ ih

theorem assocLookup_eq_some_of_mem {β : Type} (l : List (GoStr × β)) (k : GoStr) (v : β)
    (hmem : (k, v) ∈ l) (hnd : (l.map Prod.fst).Nodup) : assocLookup l k = some v := by
  induction l with
  | nil => cases hmem
  | cons p l ih =>
    obtain ⟨a, b⟩ := p
    simp only [List.map_cons, List.nodup_cons] at hnd
    rcases List.mem_cons.mp hmem with h | h
    · rw [← h]
      simp [assocLookup]
    · have hk : ¬ a = k := by
        intro he
        refine hnd.1 ?_
        rw [he]
        exact List.mem_map_of_mem Prod.fst h
      simp only [assocLookup, hk, if_false]
      exact ih h hnd.2

/-- Claim C10: registering a pointer to a struct records the pointed-to
type name as the service name (reflect.Indirect before Name) while the
methods are enumerated on the pointer type, whose method set includes the
value-receiver methods; hence an exported value-receiver method accepted by
the eligibility filter is in the service method map and a client addresses
it as name.method through findService. -/
theorem newService_ptr_receiver_exposes_value_methods
    (env : TypeEnv) (d : TypeDecl) (p n : GoStr) (m : GoMethod)
    (hd : lookupDecl env n = some d)
    (hn : isExported n = true)
    (hm : m ∈ d.valueMethods)
    (hexp : isExported m.name = true)
    (he : methodEntry m = some (m.name, mkMethodType m))
    (hnodup : ((d.valueMethods ++ d.ptrMethods).map GoMethod.name).Nodup)
    (hdot : '.' ∉ m.name) :
    ∃ s : service,
      newService env (RType.ptr (RType.named p n)) = Except.ok s
      ∧ s.name = n
      ∧ assocLookup s.method m.name = some (mkMethodType m)
      ∧ findService [(n, s)] (n ++ '.' :: m.name) = Except.ok (s, mkMethodType m) := by
  have hS : methodSetOf env (RType.ptr (RType.named p n))
      = (d.valueMethods ++ d.ptrMethods).filter (fun x => isExported x.name) := by
    simp [methodSetOf, hd]
  have hmS : m ∈ methodSetOf env (RType.ptr (RType.named p n)) := by
    rw [hS]
    exact List.mem_filter.mpr ⟨List.mem_append_left _ hm, hexp⟩
  have hkeys :
      (((registerMethods (methodSetOf env (RType.ptr (RType.named p n)))).map Prod.fst)).Nodup := by
    rw [registerMethods_eq, List.map_reverse]
    refine List.nodup_reverse.mpr ?_
    have h1 := filterMap_methodEntry_keys_sublist (methodSetOf env (RType.ptr (RType.named p n)))
    have h2 : List.Sublist ((methodSetOf env (RType.ptr (RType.named p n))).map GoMethod.name)
        ((d.valueMethods ++ d.ptrMethods).map GoMethod.name) := by
      rw [hS]
      exact (List.filter_sublist _).map GoMethod.name
    exact hnodup.sublist (h1.trans h2)
  have hlook : assocLookup (registerMethods (methodSetOf env (RType.ptr (RType.named p n)))) m.name
      = some (mkMethodType m) := by
    refine assocLookup_eq_some_of_mem _ _ _ ?_ hkeys
    rw [registerMethods_eq]
    exact List.mem_reverse.mpr (List.mem_filterMap.mpr ⟨m, hmS, he⟩)
  refine ⟨{ name := n, typ := RType.ptr (RType.named p n)
            method := registerMethods (methodSetOf env (RType.ptr (RType.named p n))) },
          ?_, rfl, hlook, ?_⟩
  · simp [newService, indirectTypeName, RType.elemT, RType.name, hn]
  · unfold findService
    rw [lastDotIdx_append_last n m.name hdot]
    simp only [take_length_append, drop_length_succ_append]
    simp [assocLookup, hlook]

def sumMethod : GoMethod :=
  { name := "Sum".data, ins := [fooT, argsT, RType.ptr float32T], outs := [errorRType] }

def uppercaseMethod : GoMethod :=
  { name := "Uppercase".data, ins := [fooT, stringT, RType.ptr stringT], outs := [errorRType] }

def fooDecl : TypeDecl :=
  { pkgPath := "main".data, name := "Foo".data
    valueMethods := [sumMethod, uppercaseMethod], ptrMethods := [] }

def demoEnv : TypeEnv := [fooDecl]

/-- Concrete instance of newService_ptr_receiver_exposes_value_methods:
registering a pointer to the demo type Foo exposes its value-receiver
method Sum under Foo.Sum. -/
theorem newService_ptr_receiver_witness :
    (lookupDecl demoEnv "Foo".data = some fooDecl)
    ∧ (isExported "Foo".data = true)
    ∧ (sumMethod ∈ fooDecl.valueMethods)
    ∧ (isExported sumMethod.name = true)
    ∧ (methodEntry sumMethod = some (sumMethod.name, mkMethodType sumMethod))
    ∧ ((fooDecl.valueMethods ++ fooDecl.ptrMethods).map GoMethod.name).Nodup
    ∧ ('.' ∉ sumMethod.name)
    ∧ (∃ s : service,
        newService demoEnv (RType.ptr (RType.named "main".data "Foo".data)) = Except.ok s
        ∧ s.name = "Foo".data
        ∧ assocLookup s.method sumMethod.name = some (mkMethodType sumMethod)
        ∧ findService [("Foo".data, s)] ("Foo".data ++ '.' :: sumMethod.name)
            = Except.ok (s, mkMethodType sumMethod)) := by
  refine ⟨by decide, by decide, by decide, by decide, by decide, by decide, by decide,
    newService_ptr_receiver_exposes_value_methods demoEnv fooDecl "main".data "Foo".data sumMethod
      (by decide) (by decide) (by decide) (by decide) (by decide) (by decide) (by decide)⟩

end YARPC
